import Mathlib

set_option maxRecDepth 100000

/-!
Verification development for the `totp_route` port-hopping tunnel
(`src/modules/route/route.py`, `src/server.py`, `src/client.py`).

The embedding models:
* Python numeric primitives (`int()` truncation, `//` floor division) over ℚ/ℤ;
* the external `pyotp` library's TOTP computation (base32 key decoding,
  HMAC-SHA1, RFC 4226 dynamic truncation, 6 digits);
* `Server.get_window_params`, `Client.get_totp_port`, the socket-registry
  update loop of `Server.run_tcp` / `Server.run_udp`, the client connector
  retry loops, and the UDP 4096-byte relay reads.

Sockets themselves are abstracted away: a `SockRec` keeps the data the code
stores per offset (`valid_start`, `valid_end`, `port`); creating a socket is
modelled as always succeeding (bind errors are caught and logged in the
source and only delay creation to a later tick).
-/

namespace TotpRoute

/-- Python `int(x)` on a float/real value: truncation toward zero. -/
def pyInt (q : ℚ) : ℤ := if 0 ≤ q then ⌊q⌋ else -⌊-q⌋

/-- Python `//` on integers: floor division (`Int.fdiv`). -/
def pyFloorDiv (a b : ℤ) : ℤ := Int.fdiv a b

/-! ### Model of the external `pyotp` library

`pyotp.TOTP(secret, interval=interval).at(t)` computes a 6-digit HOTP value
(RFC 4226, HMAC-SHA1) for the counter `int(int(t) / interval)`, with the key
obtained by base32-decoding the secret string.  The code under `src/` only
calls `TOTP.at`; the definitions below reproduce that computation. -/

/-- One round's 32-bit left rotation (values kept as naturals below `2^32`). -/
def rotl32 (s n : ℕ) : ℕ := ((n <<< s) ||| (n >>> (32 - s))) % 4294967296

/-- SHA-1 padding: append `0x80`, zeros to 56 mod 64, then the 64-bit
big-endian bit length. -/
def sha1Pad (msg : List ℕ) : List ℕ :=
  let len := msg.length
  let zeros := (120 - (len + 1) % 64) % 64
  msg ++ [128] ++ List.replicate zeros 0 ++
    (List.range 8).map (fun i => (len * 8) >>> (8 * (7 - i)) % 256)

/-- Read the `i`-th big-endian 32-bit word of a 64-byte block. -/
def wordAt (block : List ℕ) (i : ℕ) : ℕ :=
  block.getD (4 * i) 0 * 16777216 + block.getD (4 * i + 1) 0 * 65536 +
    block.getD (4 * i + 2) 0 * 256 + block.getD (4 * i + 3) 0

/-- SHA-1 message schedule: 80 expanded words of a block. -/
def sha1Schedule (block : List ℕ) : List ℕ :=
  (List.range 80).foldl
    (fun ws i =>
      if i < 16 then ws ++ [wordAt block i]
      else ws ++ [rotl32 1 (((ws.getD (i - 3) 0 ^^^ ws.getD (i - 8) 0) ^^^
        ws.getD (i - 14) 0) ^^^ ws.getD (i - 16) 0)]) []

/-- SHA-1 round function. -/
def sha1F (i b c d : ℕ) : ℕ :=
  if i < 20 then (b &&& c) ||| ((b ^^^ 4294967295) &&& d)
  else if i < 40 then (b ^^^ c) ^^^ d
  else if i < 60 then ((b &&& c) ||| (b &&& d)) ||| (c &&& d)
  else (b ^^^ c) ^^^ d

/-- SHA-1 round constants. -/
def sha1K (i : ℕ) : ℕ :=
  if i < 20 then 1518500249
  else if i < 40 then 1859775393
  else if i < 60 then 2400959708
  else 3395469782

/-- SHA-1 compression of one 64-byte block into the running state. -/
def sha1Compress (h : ℕ × ℕ × ℕ × ℕ × ℕ) (block : List ℕ) : ℕ × ℕ × ℕ × ℕ × ℕ :=
  let ws := sha1Schedule block
  let z := (List.range 80).foldl
    (fun (st : ℕ × ℕ × ℕ × ℕ × ℕ) i =>
      let t := (rotl32 5 st.1 + sha1F i st.2.1 st.2.2.1 st.2.2.2.1 +
        st.2.2.2.2 + sha1K i + ws.getD i 0) % 4294967296
      (t, st.1, rotl32 30 st.2.1, st.2.2.1, st.2.2.2.1)) h
  ((h.1 + z.1) % 4294967296, (h.2.1 + z.2.1) % 4294967296,
   (h.2.2.1 + z.2.2.1) % 4294967296, (h.2.2.2.1 + z.2.2.2.1) % 4294967296,
   (h.2.2.2.2 + z.2.2.2.2) % 4294967296)

/-- SHA-1 digest of a byte list, as a list of 20 bytes. -/
def sha1 (msg : List ℕ) : List ℕ :=
  let padded := sha1Pad msg
  let h := (List.range (padded.length / 64)).foldl
    (fun h i => sha1Compress h ((padded.drop (64 * i)).take 64))
    (1732584193, 4023233417, 2562383102, 271733878, 3285377520)
  [h.1, h.2.1, h.2.2.1, h.2.2.2.1, h.2.2.2.2].flatMap
    (fun w => (List.range 4).map (fun i => w >>> (8 * (3 - i)) % 256))

/-- HMAC-SHA1 (RFC 2104) of a message under a key, 20-byte digest. -/
def hmacSha1 (key msg : List ℕ) : List ℕ :=
  let k0 := if 64 < key.length then sha1 key else key
  let k := k0 ++ List.replicate (64 - k0.length) 0
  sha1 ((k.map (· ^^^ 92)) ++ sha1 ((k.map (· ^^^ 54)) ++ msg))

/-- Value of one base32 character (RFC 4648 alphabet, case-insensitive,
as `base64.b32decode(..., casefold=True)` used by pyotp). -/
def b32Val (c : Char) : ℕ :=
  if 'A' ≤ c ∧ c ≤ 'Z' then c.toNat - 65
  else if 'a' ≤ c ∧ c ≤ 'z' then c.toNat - 97
  else c.toNat - 24

/-- Base32 decode of a secret string into key bytes (pyotp `byte_secret`). -/
def b32decode (s : String) : List ℕ :=
  let bits := s.data.foldl (fun acc c => acc * 32 + b32Val c) 0
  let nbits := 5 * s.length
  (List.range (nbits / 8)).map (fun i => bits >>> (nbits - 8 * (i + 1)) % 256)

/-- pyotp `int_to_bytestring`: the counter as 8 big-endian bytes. -/
def int_to_bytestring (counter : ℕ) : List ℕ :=
  (List.range 8).map (fun i => counter >>> (8 * (7 - i)) % 256)

/-- pyotp `generate_otp` with 6 digits: HMAC-SHA1 of the counter, dynamic
truncation, reduced mod `10^6`.  The library returns the value as a
zero-padded 6-digit string; `int(otp)` in `route.py` recovers exactly this
natural number, so the model keeps it as a ℕ. -/
def generate_otp (secret : String) (counter : ℕ) : ℕ :=
  let d := hmacSha1 (b32decode secret) (int_to_bytestring counter)
  let o := d.getD 19 0 % 16
  (d.getD o 0 % 128 * 16777216 + d.getD (o + 1) 0 * 65536 +
    d.getD (o + 2) 0 * 256 + d.getD (o + 3) 0) % 1000000

/-- pyotp `TOTP.at(t)`: the counter is `int(int(t) / interval)`
(`datetime.fromtimestamp(int(t))` followed by `timecode`'s truncating
division).  pyotp raises `ValueError` on a negative counter (evaluation
times before the 1970 epoch); such times never occur in a run and are
excluded by nonnegativity hypotheses in the theorems below, so the model
totalises with `Int.toNat`. -/
def totp_at (secret : String) (interval : ℤ) (t : ℚ) : ℕ :=
  generate_otp secret (pyInt ((pyInt t : ℚ) / (interval : ℚ))).toNat

/-! ### Configuration (`Server.__init__` / `Client.__init__` fields) -/

/-- The tunnel parameters shared by `Server` and `Client`
(`interval`, `extend`, `base_port`, `port_range`, `secret`, `offsets`). -/
structure Config where
  interval : ℤ
  extend : ℤ
  base_port : ℕ
  port_range : ℕ
  secret : String
  offsets : List ℤ
deriving DecidableEq, Repr

/-! ### Port derivation -/

/-- The window start computed by the code for an evaluation time `t`:
`(int(t) // interval) * interval` (route.py line 70). -/
def window_start (interval : ℤ) (t : ℚ) : ℤ :=
  pyFloorDiv (pyInt t) interval * interval

/-- The window start as the spec words it: `floor(t / interval) * interval`. -/
def spec_window_start (interval : ℤ) (t : ℚ) : ℤ :=
  ⌊t / (interval : ℚ)⌋ * interval

namespace Server

/-- `Server.get_window_params` (route.py lines 63-79): from `now` and the
offset, the window start of `t = now + offset`, the derived port
`base_port + int(totp.at(window_start)) % port_range`, and the validity
bounds `window_start - extend` / `window_start + interval + extend`.
Returned as `(port, valid_start, valid_end)` like the source. -/
def get_window_params (cfg : Config) (now : ℚ) (offset : ℤ) : ℕ × ℤ × ℤ :=
  let t := now + (offset : ℚ)
  let ws := window_start cfg.interval t
  let valid_start := ws - cfg.extend
  let valid_end := ws + cfg.interval + cfg.extend
  let otp := totp_at cfg.secret cfg.interval (ws : ℚ)
  (cfg.base_port + otp % cfg.port_range, valid_start, valid_end)

/-- One entry of `self.sockets` (route.py line 60): the data the server
stores per offset, minus the socket handle itself, which the model
abstracts away: `offset -> (sock, valid_start, valid_end, port)`. -/
structure SockRec where
  valid_start : ℤ
  valid_end : ℤ
  port : ℕ
deriving DecidableEq, Repr

/-- The registry `self.sockets`, an insertion-ordered association list
keyed by offset, like the Python dict. -/
abbrev RegState := List (ℤ × SockRec)

/-- The record a tick at time `now` would store for `offset`
(its fields are exactly `get_window_params cfg now offset`). -/
def freshRec (cfg : Config) (now : ℚ) (offset : ℤ) : SockRec :=
  let p := get_window_params cfg now offset
  ⟨p.2.1, p.2.2, p.1⟩

/-- Instrumented result of processing one offset inside the `run_tcp` /
`run_udp` tick (route.py lines 145-169 and 197-221): the updated registry,
the accumulated `next_timeout`, plus which record was retired (socket
unregistered and closed) and which was created (socket bound, registered
and stored) — the side effects of the two branches. -/
structure OffsetStep where
  st : RegState
  timeout : ℚ
  retired : Option SockRec
  created : Option SockRec
deriving DecidableEq, Repr

/-- Processing of a single offset on one tick, mirroring route.py lines
145-169 (TCP) and 197-221 (UDP): retire the existing record when
`now >= old_valid_end` or the newly derived port differs; then, if no
record remains and `now >= valid_start`, try to create the socket — the
`try/except` around `create_tcp_socket` / `create_udp_socket` (lines
160-167 and 211-219) is modelled by the oracle `bind_ok`, telling whether
binding the derived port succeeds this tick: on success the record is
registered and stored, on failure the error is only logged, no record is
stored and the offset is retried on a later tick; when
`now < valid_start`, lower `next_timeout` to `valid_start - now` instead. -/
def tick_offset (cfg : Config) (now : ℚ) (bind_ok : ℕ → Bool) (st : RegState)
    (next_timeout : ℚ) (offset : ℤ) : OffsetStep :=
  match st.lookup offset with
  | some r =>
    if (r.valid_end : ℚ) ≤ now ∨ (get_window_params cfg now offset).1 ≠ r.port then
      if (((get_window_params cfg now offset).2.1 : ℤ) : ℚ) ≤ now then
        if bind_ok (get_window_params cfg now offset).1 then
          ⟨st.filter (fun q => q.1 != offset) ++ [(offset, freshRec cfg now offset)],
            next_timeout, some r, some (freshRec cfg now offset)⟩
        else
          ⟨st.filter (fun q => q.1 != offset), next_timeout, some r, none⟩
      else
        ⟨st.filter (fun q => q.1 != offset),
          min next_timeout ((((get_window_params cfg now offset).2.1 : ℤ) : ℚ) - now),
          some r, none⟩
    else ⟨st, next_timeout, none, none⟩
  | none =>
    if (((get_window_params cfg now offset).2.1 : ℤ) : ℚ) ≤ now then
      if bind_ok (get_window_params cfg now offset).1 then
        ⟨st ++ [(offset, freshRec cfg now offset)], next_timeout, none,
          some (freshRec cfg now offset)⟩
      else
        ⟨st, next_timeout, none, none⟩
    else
      ⟨st, min next_timeout ((((get_window_params cfg now offset).2.1 : ℤ) : ℚ) - now),
        none, none⟩

/-- The per-offset update loop of one tick (`for offset in self.offsets`),
starting from `next_timeout = 5`. -/
def tick_offsets (cfg : Config) (now : ℚ) (bind_ok : ℕ → Bool) (st : RegState) :
    RegState × ℚ :=
  cfg.offsets.foldl
    (fun acc o =>
      let s := tick_offset cfg now bind_ok acc.1 acc.2 o
      (s.st, s.timeout)) (st, 5)

/-- One full registry tick of `run_tcp` / `run_udp`: the per-offset update
loop followed by lowering `next_timeout` to `valid_end - now` for every
record still in `self.sockets` (route.py lines 171-172 and 223-224). -/
def tick (cfg : Config) (now : ℚ) (bind_ok : ℕ → Bool) (st : RegState) :
    RegState × ℚ :=
  let a := tick_offsets cfg now bind_ok st
  (a.1, a.1.foldl (fun acc q => min acc ((q.2.valid_end : ℚ) - now)) a.2)

/-- What one iteration of the server loop does after the tick: `run_tcp`
sleeps for `next_timeout` when `self.sockets` is empty (lines 174-176) and
otherwise blocks on `sel.select(timeout=next_timeout)`. -/
inductive LoopWait where
  | sleep (timeout : ℚ)
  | select (timeout : ℚ)
deriving DecidableEq, Repr

/-- One iteration of `run_tcp`'s outer loop (registry part): the new
registry and how the loop waits. -/
def run_tcp_iter (cfg : Config) (now : ℚ) (bind_ok : ℕ → Bool) (st : RegState) :
    RegState × LoopWait :=
  let a := tick cfg now bind_ok st
  (a.1, if a.1 = [] then .sleep a.2 else .select a.2)

/-- One iteration of `run_udp`'s outer loop (registry part): `run_udp` has
no empty-registry sleep branch and always calls
`sel_udp.select(timeout=next_timeout)` (route.py line 226), which waits for
the timeout when no socket is registered. -/
def run_udp_iter (cfg : Config) (now : ℚ) (bind_ok : ℕ → Bool) (st : RegState) :
    RegState × LoopWait :=
  let a := tick cfg now bind_ok st
  (a.1, .select a.2)

/-- The registry states reachable by ticking from the empty `self.sockets`,
under any pattern of tick times and bind successes/failures. -/
inductive Reachable (cfg : Config) : RegState → Prop where
  | init : Reachable cfg []
  | step {st : RegState} (now : ℚ) (bind_ok : ℕ → Bool) (h : Reachable cfg st) :
      Reachable cfg (tick cfg now bind_ok st).1

/-- Outcome of `Server.handle_tcp_connection` (route.py lines 98-114),
with the success of `socket.create_connection((target_host, target_port))`
as an oracle: on failure the inbound connection is closed and the function
returns; on success `bidirectional_forward_tcp` runs and both ends are
closed afterwards. -/
structure TcpHandlerOutcome where
  client_closed : Bool
  target_closed : Bool
  forwarded : Bool
deriving DecidableEq, Repr

/-- `Server.handle_tcp_connection`, target-connection success abstracted
as a Bool. -/
def handle_tcp_connection (target_ok : Bool) : TcpHandlerOutcome :=
  if target_ok then ⟨true, true, true⟩ else ⟨true, false, false⟩

end Server

namespace Client

/-- `Client.get_totp_port` (route.py lines 259-263): the TOTP evaluated
directly at `t`, reduced mod `port_range` and added to `base_port`. -/
def get_totp_port (cfg : Config) (t : ℚ) : ℕ :=
  cfg.base_port + totp_at cfg.secret cfg.interval t % cfg.port_range

/-- The offset-retry loop shared by `Client.handle_tcp_connection` and
`Client.handle_udp_packet` (route.py lines 273-282 and 299-312): walk the
configured offsets in order, compute the port for `now + offset`, attempt
it (success abstracted by the oracle `conn_ok`), stop at the first
success.  Returns the list of attempted `(offset, port)` pairs and the
successful pair, if any.  The source re-reads `time.time()` before each
attempt; the model uses one clock reading `now` for the loop, which the
claims settled here do not distinguish. -/
def try_offsets (cfg : Config) (now : ℚ) (conn_ok : ℤ → Bool) :
    List ℤ → List (ℤ × ℕ) × Option (ℤ × ℕ)
  | [] => ([], none)
  | o :: rest =>
    let port := get_totp_port cfg (now + (o : ℚ))
    if conn_ok o then ([(o, port)], some (o, port))
    else
      let r := try_offsets cfg now conn_ok rest
      ((o, port) :: r.1, r.2)

/-- Outcome of `Client.handle_tcp_connection` (route.py lines 265-290). -/
structure TcpOutcome where
  attempts : List (ℤ × ℕ)
  server_conn : Option (ℤ × ℕ)
  local_closed : Bool
  forwarded : Bool
  failure_reported : Bool
deriving DecidableEq, Repr

/-- `Client.handle_tcp_connection`: if every offset fails, report and close
the local connection without forwarding; otherwise forward and close both
ends afterwards. -/
def handle_tcp_connection (cfg : Config) (now : ℚ) (conn_ok : ℤ → Bool) :
    TcpOutcome :=
  match (try_offsets cfg now conn_ok cfg.offsets).2 with
  | none => ⟨(try_offsets cfg now conn_ok cfg.offsets).1, none, true, false, true⟩
  | some c => ⟨(try_offsets cfg now conn_ok cfg.offsets).1, some c, true, true, false⟩

/-- Outcome of `Client.handle_udp_packet` (route.py lines 292-313). -/
structure UdpOutcome where
  attempts : List (ℤ × ℕ)
  used : Option (ℤ × ℕ)
  sent_to_local : Bool
  failure_reported : Bool
deriving DecidableEq, Repr

/-- `Client.handle_udp_packet`: the same offset loop; on the first offset
whose exchange succeeds the response is sent back to the local address and
the function returns; if all fail the datagram is dropped and the failure
printed. -/
def handle_udp_packet (cfg : Config) (now : ℚ) (conn_ok : ℤ → Bool) :
    UdpOutcome :=
  match (try_offsets cfg now conn_ok cfg.offsets).2 with
  | none => ⟨(try_offsets cfg now conn_ok cfg.offsets).1, none, false, true⟩
  | some c => ⟨(try_offsets cfg now conn_ok cfg.offsets).1, some c, true, false⟩

end Client

/-! ### UDP datagram truncation

Every UDP read in the relay is `recvfrom(4096)` (route.py lines 126, 231,
307 and 355), which on a datagram socket silently truncates a longer
datagram to its first 4096 bytes. -/

/-- A `recvfrom(4096)` read of a datagram, as the code performs at every
UDP read point. -/
def recv4096 (payload : List ℕ) : List ℕ := payload.take 4096

/-- The end-to-end UDP relay reads for an application payload `P` and a
target reply `R`: the client's local read (route.py line 355), the
server's inbound read (line 231), the server's read of the target's reply
(line 126) and the client's read of the server's reply (line 307).
Returns what the target receives and what the local application receives;
the `sendto` calls in between forward the read bytes unchanged. -/
def end_to_end_udp (P R : List ℕ) : List ℕ × List ℕ :=
  let q1 := recv4096 P
  let q2 := recv4096 q1
  let r1 := recv4096 R
  let r2 := recv4096 r1
  (q2, r2)

/-- A well-formed registry record: its bounds span one window plus the
`extend` margin on each side, and its port is the one derived for the
window start it was created for (`valid_start + extend`). -/
def Server.goodRec (cfg : Config) (r : Server.SockRec) : Prop :=
  r.valid_end = r.valid_start + cfg.interval + 2 * cfg.extend ∧
  r.port = cfg.base_port +
    totp_at cfg.secret cfg.interval ((r.valid_start + cfg.extend : ℤ) : ℚ) % cfg.port_range

/-- The end-to-end scenario configuration of the spec:
`interval=30, extend=15, base_port=3000, port_range=1000, offsets=[0]`,
with the repository's example secret (config.toml.example). -/
def scenarioConfig : Config :=
  ⟨30, 15, 3000, 1000, "S3K3TPI5MYA2M67V", [0]⟩

/-! ## Arithmetic facts about the Python primitives -/

theorem pyInt_intCast (n : ℤ) : pyInt (n : ℚ) = n := by
  unfold pyInt
  split
  · exact Int.floor_intCast n
  · have h : -((n : ℤ) : ℚ) = ((-n : ℤ) : ℚ) := by push_cast; ring
    rw [h, Int.floor_intCast]; ring

theorem pyInt_of_nonneg {q : ℚ} (h : 0 ≤ q) : pyInt q = ⌊q⌋ := by
  unfold pyInt; exact if_pos h

theorem floor_intCast_div (m : ℤ) {d : ℤ} (hd : 0 < d) :
    ⌊(m : ℚ) / (d : ℚ)⌋ = m / d := by
  have h1 : ((d.toNat : ℕ) : ℤ) = d := Int.toNat_of_nonneg hd.le
  have h2 : ((d.toNat : ℕ) : ℚ) = (d : ℚ) := by exact_mod_cast congrArg (fun z : ℤ => (z : ℚ)) h1
  rw [← h2, Rat.floor_intCast_div_natCast m d.toNat, h1]

theorem floor_div_intCast (t : ℚ) {d : ℤ} (hd : 0 < d) : ⌊t / (d : ℚ)⌋ = ⌊t⌋ / d := by
  have hd' : (0 : ℚ) < (d : ℚ) := by exact_mod_cast hd
  have h0 : (0 : ℤ) ≤ ⌊t⌋ % d := Int.emod_nonneg _ (ne_of_gt hd)
  have h1 : ⌊t⌋ % d < d := Int.emod_lt_of_pos _ hd
  have h2 : d * (⌊t⌋ / d) + ⌊t⌋ % d = ⌊t⌋ := Int.ediv_add_emod _ _
  have hq1 : ((⌊t⌋ / d : ℤ) : ℚ) * (d : ℚ) ≤ t := by
    have hle : (⌊t⌋ / d) * d ≤ ⌊t⌋ := by nlinarith
    calc ((⌊t⌋ / d : ℤ) : ℚ) * (d : ℚ) = (((⌊t⌋ / d) * d : ℤ) : ℚ) := by push_cast; ring
    _ ≤ ((⌊t⌋ : ℤ) : ℚ) := by exact_mod_cast hle
    _ ≤ t := Int.floor_le t
  have hq2 : t < (((⌊t⌋ / d : ℤ) : ℚ) + 1) * (d : ℚ) := by
    have hle : ⌊t⌋ + 1 ≤ (⌊t⌋ / d + 1) * d := by nlinarith
    calc t < (⌊t⌋ : ℚ) + 1 := Int.lt_floor_add_one t
    _ ≤ (((⌊t⌋ / d + 1) * d : ℤ) : ℚ) := by exact_mod_cast hle
    _ = (((⌊t⌋ / d : ℤ) : ℚ) + 1) * (d : ℚ) := by push_cast; ring
  rw [Int.floor_eq_iff]
  exact ⟨by rw [le_div_iff₀ hd']; exact hq1, by rw [div_lt_iff₀ hd']; exact hq2⟩

/-- The counter pyotp evaluates `TOTP.at` with, for a nonnegative time. -/
theorem totp_counter_eq {d : ℤ} (hd : 0 < d) {t : ℚ} (ht : 0 ≤ t) :
    pyInt ((pyInt t : ℚ) / (d : ℚ)) = ⌊t⌋ / d := by
  rw [pyInt_of_nonneg ht]
  have hnn : (0 : ℚ) ≤ (⌊t⌋ : ℚ) / (d : ℚ) :=
    div_nonneg (by exact_mod_cast Int.floor_nonneg.mpr ht) (by exact_mod_cast hd.le)
  rw [pyInt_of_nonneg hnn, floor_intCast_div _ hd]

theorem totp_at_eq {d : ℤ} (s : String) (hd : 0 < d) {t : ℚ} (ht : 0 ≤ t) :
    totp_at s d t = generate_otp s (⌊t⌋ / d).toNat := by
  unfold totp_at; rw [totp_counter_eq hd ht]

theorem window_start_eq_ediv {d : ℤ} (hd : 0 < d) {t : ℚ} (ht : 0 ≤ t) :
    window_start d t = (⌊t⌋ / d) * d := by
  unfold window_start pyFloorDiv
  rw [pyInt_of_nonneg ht, Int.fdiv_eq_ediv _ hd.le]

theorem totp_at_intCast_mul {d : ℤ} (s : String) (hd : 0 < d) (q : ℤ) :
    totp_at s d ((q * d : ℤ) : ℚ) = generate_otp s q.toNat := by
  unfold totp_at
  have hd0 : (d : ℚ) ≠ 0 := by exact_mod_cast hd.ne'
  have h : ((pyInt ((q * d : ℤ) : ℚ) : ℤ) : ℚ) / (d : ℚ) = (q : ℚ) := by
    rw [pyInt_intCast]; push_cast; field_simp
  rw [h, pyInt_intCast]

/-- The port returned by `Server.get_window_params`, unfolded. -/
theorem get_window_params_port (cfg : Config) (now : ℚ) (offset : ℤ) :
    (Server.get_window_params cfg now offset).1 =
      cfg.base_port + totp_at cfg.secret cfg.interval
        ((window_start cfg.interval (now + (offset : ℚ)) : ℤ) : ℚ) % cfg.port_range := rfl

/-- The validity bounds returned by `Server.get_window_params`, unfolded. -/
theorem get_window_params_bounds (cfg : Config) (now : ℚ) (offset : ℤ) :
    (Server.get_window_params cfg now offset).2.1 =
      window_start cfg.interval (now + (offset : ℚ)) - cfg.extend ∧
    (Server.get_window_params cfg now offset).2.2 =
      window_start cfg.interval (now + (offset : ℚ)) + cfg.interval + cfg.extend :=
  ⟨rfl, rfl⟩

/-- Both roles' ports reduce to `generate_otp` at the counter `⌊t/interval⌋`. -/
theorem server_port_eq_counter (cfg : Config) (hi : 0 < cfg.interval) (now : ℚ)
    (offset : ℤ) (ht : 0 ≤ now + (offset : ℚ)) :
    (Server.get_window_params cfg now offset).1 =
      cfg.base_port + generate_otp cfg.secret (⌊now + (offset : ℚ)⌋ / cfg.interval).toNat
        % cfg.port_range := by
  rw [get_window_params_port, window_start_eq_ediv hi ht, totp_at_intCast_mul _ hi]

theorem client_port_eq_counter (cfg : Config) (hi : 0 < cfg.interval) {t : ℚ}
    (ht : 0 ≤ t) :
    Client.get_totp_port cfg t =
      cfg.base_port + generate_otp cfg.secret (⌊t⌋ / cfg.interval).toNat
        % cfg.port_range := by
  unfold Client.get_totp_port
  rw [totp_at_eq _ hi ht]

theorem window_start_thirty {t : ℚ} (k : ℤ) (hk : 0 ≤ k)
    (h1 : 30 * (k : ℚ) ≤ t) (h2 : t < 30 * (k : ℚ) + 30) :
    window_start 30 t = 30 * k := by
  have hk' : (0 : ℚ) ≤ (k : ℚ) := by exact_mod_cast hk
  have ht : 0 ≤ t := by nlinarith
  have hlow : 30 * k ≤ ⌊t⌋ := by
    rw [Int.le_floor]; push_cast; linarith
  have hhigh : ⌊t⌋ < 30 * (k + 1) := by
    rw [Int.floor_lt]; push_cast; linarith
  have hdiv : ⌊t⌋ / 30 = k := by
    have ha : k ≤ ⌊t⌋ / 30 := by
      rw [Int.le_ediv_iff_mul_le (by norm_num)]; linarith
    have hb : ⌊t⌋ / 30 < k + 1 := by
      rw [Int.ediv_lt_iff_lt_mul (by norm_num)]; linarith
    omega
  rw [window_start_eq_ediv (by norm_num) ht, hdiv, mul_comm]

/-- The whole window-parameter triple only depends on the window start. -/
theorem get_window_params_congr (cfg : Config) {now now' : ℚ} {o o' : ℤ}
    (h : window_start cfg.interval (now + (o : ℚ)) =
      window_start cfg.interval (now' + (o' : ℚ))) :
    Server.get_window_params cfg now o = Server.get_window_params cfg now' o' := by
  unfold Server.get_window_params
  dsimp only
  rw [h]

theorem freshRec_congr (cfg : Config) {now now' : ℚ} {o o' : ℤ}
    (h : window_start cfg.interval (now + (o : ℚ)) =
      window_start cfg.interval (now' + (o' : ℚ))) :
    Server.freshRec cfg now o = Server.freshRec cfg now' o' := by
  unfold Server.freshRec
  rw [get_window_params_congr cfg h]

/-! ## Association-list facts about the registry -/

theorem int_beq_false {a b : ℤ} (h : a ≠ b) : (a == b) = false := by
  simpa using h

theorem lookup_filter_self (st : Server.RegState) (o : ℤ) :
    (st.filter (fun q => q.1 != o)).lookup o = none := by
  induction st with
  | nil => rfl
  | cons hd tl ih =>
    obtain ⟨k, v⟩ := hd
    by_cases h : k = o
    · simpa [List.filter_cons, h] using ih
    · simp [List.filter_cons, h, List.lookup_cons, int_beq_false (Ne.symm h), ih]

theorem lookup_filter_ne {o o' : ℤ} (st : Server.RegState) (h : o' ≠ o) :
    (st.filter (fun q => q.1 != o)).lookup o' = st.lookup o' := by
  induction st with
  | nil => rfl
  | cons hd tl ih =>
    obtain ⟨k, v⟩ := hd
    by_cases hk : k = o
    · subst hk
      simp [List.filter_cons, List.lookup_cons, int_beq_false h, ih]
    · by_cases ho : o' = k
      · subst ho
        simp [List.filter_cons, hk, List.lookup_cons]
      · simp [List.filter_cons, hk, List.lookup_cons, int_beq_false ho, ih]

theorem lookup_append_single_ne {o o' : ℤ} (st : Server.RegState)
    (r : Server.SockRec) (h : o' ≠ o) :
    (st ++ [(o, r)]).lookup o' = st.lookup o' := by
  induction st with
  | nil => simp [List.lookup_cons, int_beq_false h]
  | cons hd tl ih =>
    obtain ⟨k, v⟩ := hd
    by_cases ho : o' = k
    · subst ho; simp [List.lookup_cons]
    · simp [List.lookup_cons, int_beq_false ho, ih]

theorem lookup_append_single_self {st : Server.RegState} {o : ℤ}
    (r : Server.SockRec) (h : st.lookup o = none) :
    (st ++ [(o, r)]).lookup o = some r := by
  induction st with
  | nil => simp [List.lookup_cons]
  | cons hd tl ih =>
    obtain ⟨k, v⟩ := hd
    by_cases ho : o = k
    · subst ho; simp [List.lookup_cons] at h
    · simp only [List.cons_append, List.lookup_cons, int_beq_false ho] at h ⊢
      exact ih h

theorem lookup_eq_none_iff {st : Server.RegState} {o : ℤ} :
    st.lookup o = none ↔ o ∉ st.map Prod.fst := by
  induction st with
  | nil => simp
  | cons hd tl ih =>
    obtain ⟨k, v⟩ := hd
    by_cases ho : o = k
    · subst ho; simp [List.lookup_cons]
    · simp [List.lookup_cons, int_beq_false ho, ih, ho]

/-! ## Behaviour of one offset's registry update -/

theorem tick_offset_lookup_ne (cfg : Config) (now : ℚ) (bind_ok : ℕ → Bool)
    (st : Server.RegState) (τ : ℚ) {o o' : ℤ} (h : o' ≠ o) :
    (Server.tick_offset cfg now bind_ok st τ o).st.lookup o' = st.lookup o' := by
  unfold Server.tick_offset
  split
  · split_ifs with h1 h2 h3
    · rw [lookup_append_single_ne _ _ h, lookup_filter_ne _ h]
    · rw [lookup_filter_ne _ h]
    · rw [lookup_filter_ne _ h]
    · rfl
  · split_ifs with h1 h2
    · rw [lookup_append_single_ne _ _ h]
    · rfl
    · rfl

theorem tick_offset_lookup_self (cfg : Config) (now : ℚ) (bind_ok : ℕ → Bool)
    (st : Server.RegState) (τ : ℚ) (o : ℤ) :
    (Server.tick_offset cfg now bind_ok st τ o).st.lookup o = st.lookup o ∨
    (Server.tick_offset cfg now bind_ok st τ o).st.lookup o = none ∨
    (Server.tick_offset cfg now bind_ok st τ o).st.lookup o =
      some (Server.freshRec cfg now o) := by
  unfold Server.tick_offset
  split
  next r hl =>
    split_ifs with h1 h2 h3
    · exact Or.inr (Or.inr (lookup_append_single_self _ (lookup_filter_self st o)))
    · exact Or.inr (Or.inl (lookup_filter_self st o))
    · exact Or.inr (Or.inl (lookup_filter_self st o))
    · exact Or.inl rfl
  next hl =>
    split_ifs with h1 h2
    · exact Or.inr (Or.inr (lookup_append_single_self _ hl))
    · exact Or.inl rfl
    · exact Or.inl rfl

/-- The trichotomy the timeout accumulation follows: an offset ends its
processing either with no record and a not-yet-open window — then it
contributed `valid_start - now` — or with a record, or with no record
because the bind failed while the window was open; in the latter two cases
it contributed nothing. -/
theorem tick_offset_trichotomy (cfg : Config) (now : ℚ) (bind_ok : ℕ → Bool)
    (st : Server.RegState) (τ : ℚ) (o : ℤ) :
    ((Server.tick_offset cfg now bind_ok st τ o).st.lookup o = none ∧
      now < (((Server.get_window_params cfg now o).2.1 : ℤ) : ℚ) ∧
      (Server.tick_offset cfg now bind_ok st τ o).timeout =
        min τ ((((Server.get_window_params cfg now o).2.1 : ℤ) : ℚ) - now)) ∨
    ((Server.tick_offset cfg now bind_ok st τ o).st.lookup o ≠ none ∧
      (Server.tick_offset cfg now bind_ok st τ o).timeout = τ) ∨
    ((Server.tick_offset cfg now bind_ok st τ o).st.lookup o = none ∧
      ¬(now < (((Server.get_window_params cfg now o).2.1 : ℤ) : ℚ)) ∧
      (Server.tick_offset cfg now bind_ok st τ o).timeout = τ) := by
  unfold Server.tick_offset
  split
  next r hl =>
    split_ifs with h1 h2 h3
    · refine Or.inr (Or.inl ⟨?_, rfl⟩)
      rw [lookup_append_single_self _ (lookup_filter_self st o)]
      simp
    · exact Or.inr (Or.inr ⟨lookup_filter_self st o, not_lt.mpr h2, rfl⟩)
    · exact Or.inl ⟨lookup_filter_self st o, not_le.mp h2, rfl⟩
    · refine Or.inr (Or.inl ⟨?_, rfl⟩)
      rw [hl]; simp
  next hl =>
    split_ifs with h1 h2
    · refine Or.inr (Or.inl ⟨?_, rfl⟩)
      rw [lookup_append_single_self _ hl]
      simp
    · exact Or.inr (Or.inr ⟨hl, not_lt.mpr h1, rfl⟩)
    · exact Or.inl ⟨hl, not_le.mp h1, rfl⟩

/-! ## Registry invariants through a tick -/

theorem goodRec_freshRec (cfg : Config) (now : ℚ) (o : ℤ) :
    Server.goodRec cfg (Server.freshRec cfg now o) := by
  have hb := get_window_params_bounds cfg now o
  have hp := get_window_params_port cfg now o
  unfold Server.goodRec Server.freshRec
  refine ⟨?_, ?_⟩
  · show (Server.get_window_params cfg now o).2.2 =
      (Server.get_window_params cfg now o).2.1 + cfg.interval + 2 * cfg.extend
    rw [hb.1, hb.2]; ring
  · show (Server.get_window_params cfg now o).1 = cfg.base_port +
      totp_at cfg.secret cfg.interval
        (((Server.get_window_params cfg now o).2.1 + cfg.extend : ℤ) : ℚ) % cfg.port_range
    rw [hp, hb.1]
    have h : window_start cfg.interval (now + (o : ℚ)) - cfg.extend + cfg.extend =
        window_start cfg.interval (now + (o : ℚ)) := by ring
    rw [h]

theorem tick_offset_preserves (cfg : Config) (now : ℚ) (bind_ok : ℕ → Bool)
    (st : Server.RegState) (τ : ℚ) (o : ℤ) (hnd : (st.map Prod.fst).Nodup)
    (hg : ∀ q ∈ st, Server.goodRec cfg q.2) :
    ((Server.tick_offset cfg now bind_ok st τ o).st.map Prod.fst).Nodup ∧
    (∀ q ∈ (Server.tick_offset cfg now bind_ok st τ o).st,
      Server.goodRec cfg q.2) := by
  have hfil_nd : ((st.filter (fun q => q.1 != o)).map Prod.fst).Nodup :=
    ((List.filter_sublist st).map Prod.fst).nodup hnd
  have hfil_not : o ∉ (st.filter (fun q => q.1 != o)).map Prod.fst := by
    intro hmem
    obtain ⟨q, hq, hq1⟩ := List.mem_map.mp hmem
    have := (List.mem_filter.mp hq).2
    rw [hq1] at this
    simp at this
  have hfil_good : ∀ q ∈ st.filter (fun q => q.1 != o), Server.goodRec cfg q.2 :=
    fun q hq => hg q (List.mem_filter.mp hq).1
  have happend : ∀ (base : Server.RegState), (base.map Prod.fst).Nodup →
      o ∉ base.map Prod.fst → (∀ q ∈ base, Server.goodRec cfg q.2) →
      (((base ++ [(o, Server.freshRec cfg now o)]).map Prod.fst).Nodup ∧
       ∀ q ∈ base ++ [(o, Server.freshRec cfg now o)], Server.goodRec cfg q.2) := by
    intro base h1 h2 h3
    constructor
    · rw [List.map_append]
      rw [List.nodup_append]
      refine ⟨h1, by simp, ?_⟩
      intro a ha hb
      simp only [List.map_cons, List.map_nil, List.mem_singleton] at hb
      subst hb
      exact h2 ha
    · intro q hq
      rcases List.mem_append.mp hq with hq | hq
      · exact h3 q hq
      · rw [List.mem_singleton] at hq
        subst hq
        exact goodRec_freshRec cfg now o
  unfold Server.tick_offset
  split
  next r0 hl =>
    split_ifs with h1 h2 h3
    · exact happend _ hfil_nd hfil_not hfil_good
    · exact ⟨hfil_nd, hfil_good⟩
    · exact ⟨hfil_nd, hfil_good⟩
    · exact ⟨hnd, hg⟩
  next hl =>
    split_ifs with h1 h2
    · exact happend st hnd (lookup_eq_none_iff.mp hl) hg
    · exact ⟨hnd, hg⟩
    · exact ⟨hnd, hg⟩

/-- Stepping the per-offset fold once is one `tick_offset`. -/
theorem foldl_tick_cons (cfg : Config) (now : ℚ) (bind_ok : ℕ → Bool) (o0 : ℤ)
    (L : List ℤ) (st : Server.RegState) (τ : ℚ) :
    (o0 :: L).foldl
      (fun acc o =>
        let s := Server.tick_offset cfg now bind_ok acc.1 acc.2 o
        (s.st, s.timeout)) (st, τ) =
    L.foldl
      (fun acc o =>
        let s := Server.tick_offset cfg now bind_ok acc.1 acc.2 o
        (s.st, s.timeout))
      ((Server.tick_offset cfg now bind_ok st τ o0).st,
       (Server.tick_offset cfg now bind_ok st τ o0).timeout) := rfl

theorem tick_offsets_eq_foldl (cfg : Config) (now : ℚ) (bind_ok : ℕ → Bool)
    (st : Server.RegState) :
    Server.tick_offsets cfg now bind_ok st =
      cfg.offsets.foldl
        (fun acc o =>
          let s := Server.tick_offset cfg now bind_ok acc.1 acc.2 o
          (s.st, s.timeout)) (st, 5) := rfl

theorem tick_fst (cfg : Config) (now : ℚ) (bind_ok : ℕ → Bool)
    (st : Server.RegState) :
    (Server.tick cfg now bind_ok st).1 =
      (Server.tick_offsets cfg now bind_ok st).1 := rfl

theorem tick_snd (cfg : Config) (now : ℚ) (bind_ok : ℕ → Bool)
    (st : Server.RegState) :
    (Server.tick cfg now bind_ok st).2 =
      (Server.tick_offsets cfg now bind_ok st).1.foldl
        (fun acc q => min acc ((q.2.valid_end : ℚ) - now))
        (Server.tick_offsets cfg now bind_ok st).2 := rfl

theorem foldl_tick_preserves (cfg : Config) (now : ℚ) (bind_ok : ℕ → Bool)
    (L : List ℤ) :
    ∀ (st : Server.RegState) (τ : ℚ), (st.map Prod.fst).Nodup →
      (∀ q ∈ st, Server.goodRec cfg q.2) →
      (((L.foldl
          (fun acc o =>
            let s := Server.tick_offset cfg now bind_ok acc.1 acc.2 o
            (s.st, s.timeout)) (st, τ)).1.map Prod.fst).Nodup ∧
       ∀ q ∈ (L.foldl
          (fun acc o =>
            let s := Server.tick_offset cfg now bind_ok acc.1 acc.2 o
            (s.st, s.timeout)) (st, τ)).1, Server.goodRec cfg q.2) := by
  induction L with
  | nil => intro st τ h1 h2; exact ⟨h1, h2⟩
  | cons o0 L ih =>
    intro st τ h1 h2
    rw [foldl_tick_cons]
    have h := tick_offset_preserves cfg now bind_ok st τ o0 h1 h2
    exact ih _ _ h.1 h.2

theorem tick_preserves (cfg : Config) (now : ℚ) (bind_ok : ℕ → Bool)
    (st : Server.RegState)
    (h1 : (st.map Prod.fst).Nodup) (h2 : ∀ q ∈ st, Server.goodRec cfg q.2) :
    (((Server.tick cfg now bind_ok st).1.map Prod.fst).Nodup) ∧
    (∀ q ∈ (Server.tick cfg now bind_ok st).1, Server.goodRec cfg q.2) := by
  rw [tick_fst, tick_offsets_eq_foldl]
  exact foldl_tick_preserves cfg now bind_ok cfg.offsets st 5 h1 h2

theorem foldl_tick_lookup (cfg : Config) (now : ℚ) (bind_ok : ℕ → Bool)
    (L : List ℤ) :
    ∀ (st : Server.RegState) (τ : ℚ) (o : ℤ),
      (L.foldl
        (fun acc o =>
          let s := Server.tick_offset cfg now bind_ok acc.1 acc.2 o
          (s.st, s.timeout)) (st, τ)).1.lookup o = st.lookup o ∨
      (L.foldl
        (fun acc o =>
          let s := Server.tick_offset cfg now bind_ok acc.1 acc.2 o
          (s.st, s.timeout)) (st, τ)).1.lookup o = none ∨
      (L.foldl
        (fun acc o =>
          let s := Server.tick_offset cfg now bind_ok acc.1 acc.2 o
          (s.st, s.timeout)) (st, τ)).1.lookup o =
        some (Server.freshRec cfg now o) := by
  induction L with
  | nil => intro st τ o; exact Or.inl rfl
  | cons o0 L ih =>
    intro st τ o
    rw [foldl_tick_cons]
    rcases ih (Server.tick_offset cfg now bind_ok st τ o0).st
      (Server.tick_offset cfg now bind_ok st τ o0).timeout o with h | h | h
    · by_cases ho : o = o0
      · subst ho
        rcases tick_offset_lookup_self cfg now bind_ok st τ o with h' | h' | h'
        · exact Or.inl (h.trans h')
        · exact Or.inr (Or.inl (h.trans h'))
        · exact Or.inr (Or.inr (h.trans h'))
      · exact Or.inl (h.trans (tick_offset_lookup_ne cfg now bind_ok st τ ho))
    · exact Or.inr (Or.inl h)
    · exact Or.inr (Or.inr h)

theorem foldl_tick_lookup_not_mem (cfg : Config) (now : ℚ) (bind_ok : ℕ → Bool)
    (L : List ℤ) :
    ∀ (st : Server.RegState) (τ : ℚ) {o : ℤ}, o ∉ L →
      (L.foldl
        (fun acc o =>
          let s := Server.tick_offset cfg now bind_ok acc.1 acc.2 o
          (s.st, s.timeout)) (st, τ)).1.lookup o = st.lookup o := by
  induction L with
  | nil => intro st τ o _; rfl
  | cons o0 L ih =>
    intro st τ o hno
    rw [foldl_tick_cons]
    have h1 : o ≠ o0 := fun h => hno (h ▸ List.mem_cons_self o0 L)
    have h2 : o ∉ L := fun h => hno (List.mem_cons_of_mem o0 h)
    rw [ih _ _ h2, tick_offset_lookup_ne cfg now bind_ok st τ h1]

/-- The accumulated `next_timeout` after the per-offset loop is the minimum
of its initial value and `valid_start - now` over every offset left
pending (no record after the loop, window not yet open). -/
theorem foldl_tick_timeout (cfg : Config) (now : ℚ) (bind_ok : ℕ → Bool)
    (L : List ℤ) :
    ∀ (st : Server.RegState) (τ : ℚ), L.Nodup →
      (L.foldl
        (fun acc o =>
          let s := Server.tick_offset cfg now bind_ok acc.1 acc.2 o
          (s.st, s.timeout)) (st, τ)).2 =
      List.foldl min τ
        ((L.filter (fun o =>
            decide ((L.foldl
              (fun acc o =>
                let s := Server.tick_offset cfg now bind_ok acc.1 acc.2 o
                (s.st, s.timeout)) (st, τ)).1.lookup o = none) &&
            decide (now < (((Server.get_window_params cfg now o).2.1 : ℤ) : ℚ)))).map
          (fun o => (((Server.get_window_params cfg now o).2.1 : ℤ) : ℚ) - now)) := by
  induction L with
  | nil => intro st τ _; rfl
  | cons o0 L ih =>
    intro st τ hnd
    obtain ⟨hno, hnd'⟩ := List.nodup_cons.mp hnd
    rw [foldl_tick_cons]
    have hfinal := foldl_tick_lookup_not_mem cfg now bind_ok L
      (Server.tick_offset cfg now bind_ok st τ o0).st
      (Server.tick_offset cfg now bind_ok st τ o0).timeout hno
    rcases tick_offset_trichotomy cfg now bind_ok st τ o0 with
      ⟨hn, hlt, hτ⟩ | ⟨hn, hτ⟩ | ⟨hn, hnlt, hτ⟩
    · have hfn : (L.foldl
          (fun acc o =>
            let s := Server.tick_offset cfg now bind_ok acc.1 acc.2 o
            (s.st, s.timeout))
          ((Server.tick_offset cfg now bind_ok st τ o0).st,
           (Server.tick_offset cfg now bind_ok st τ o0).timeout)).1.lookup o0 = none :=
        hfinal.trans hn
      rw [List.filter_cons, if_pos (by rw [hfn]; simp [hlt]), List.map_cons,
        List.foldl_cons, ih _ _ hnd', hτ]
    · have hfn : (L.foldl
          (fun acc o =>
            let s := Server.tick_offset cfg now bind_ok acc.1 acc.2 o
            (s.st, s.timeout))
          ((Server.tick_offset cfg now bind_ok st τ o0).st,
           (Server.tick_offset cfg now bind_ok st τ o0).timeout)).1.lookup o0 ≠ none := by
        rw [hfinal]; exact hn
      rw [List.filter_cons, if_neg (by simp [hfn]), ih _ _ hnd', hτ]
    · rw [List.filter_cons, if_neg (by simp [hnlt]), ih _ _ hnd', hτ]

/-! ## Ticks of a single-offset configuration -/

theorem tick_singleton_create (cfg : Config) (now : ℚ) (bind_ok : ℕ → Bool)
    (hoff : cfg.offsets = [0])
    (hvs : (((Server.get_window_params cfg now 0).2.1 : ℤ) : ℚ) ≤ now)
    (hbind : bind_ok (Server.get_window_params cfg now 0).1 = true) :
    (Server.tick cfg now bind_ok []).1 = [(0, Server.freshRec cfg now 0)] := by
  rw [tick_fst, tick_offsets_eq_foldl, hoff, foldl_tick_cons]
  show (Server.tick_offset cfg now bind_ok [] 5 0).st = _
  unfold Server.tick_offset
  split
  next r hres => simp [List.lookup] at hres
  next hres =>
    rw [if_pos hvs, if_pos hbind]
    rfl

theorem tick_singleton_keep (cfg : Config) (now : ℚ) (bind_ok : ℕ → Bool)
    (r : Server.SockRec)
    (hoff : cfg.offsets = [0]) (hve : ¬((r.valid_end : ℚ) ≤ now))
    (hport : (Server.get_window_params cfg now 0).1 = r.port) :
    (Server.tick cfg now bind_ok [(0, r)]).1 = [(0, r)] := by
  rw [tick_fst, tick_offsets_eq_foldl, hoff, foldl_tick_cons]
  show (Server.tick_offset cfg now bind_ok [(0, r)] 5 0).st = _
  unfold Server.tick_offset
  split
  next r' hres =>
    simp [List.lookup] at hres
    subst hres
    rw [if_neg (by push_neg; exact ⟨not_le.mp hve, hport⟩)]
  next hres => simp [List.lookup] at hres

theorem tick_singleton_replace (cfg : Config) (now : ℚ) (bind_ok : ℕ → Bool)
    (r : Server.SockRec)
    (hoff : cfg.offsets = [0])
    (hcond : (r.valid_end : ℚ) ≤ now ∨ (Server.get_window_params cfg now 0).1 ≠ r.port)
    (hvs : (((Server.get_window_params cfg now 0).2.1 : ℤ) : ℚ) ≤ now)
    (hbind : bind_ok (Server.get_window_params cfg now 0).1 = true) :
    (Server.tick cfg now bind_ok [(0, r)]).1 =
      [(0, Server.freshRec cfg now 0)] := by
  rw [tick_fst, tick_offsets_eq_foldl, hoff, foldl_tick_cons]
  show (Server.tick_offset cfg now bind_ok [(0, r)] 5 0).st = _
  unfold Server.tick_offset
  split
  next r' hres =>
    simp [List.lookup] at hres
    subst hres
    rw [if_pos hcond, if_pos hvs, if_pos hbind]
    rfl
  next hres => simp [List.lookup] at hres

/-- The spec scenario's derived ports for window 0 and window 30 differ:
evaluating the HOTP values for counters 0 and 1 under the example secret
gives 940687 and 632229, hence ports 3687 and 3229. -/
theorem scenario_ports_differ :
    (Server.get_window_params scenarioConfig 30 0).1 ≠
      (Server.get_window_params scenarioConfig 0 0).1 := by
  have e1 : (Server.get_window_params scenarioConfig 30 0).1 =
      3000 + generate_otp "S3K3TPI5MYA2M67V" 1 % 1000 := by
    rw [server_port_eq_counter scenarioConfig (by decide) 30 0 (by norm_num)]
    have h1 : (⌊(30 : ℚ) + ((0 : ℤ) : ℚ)⌋ : ℤ) = 30 := by norm_num
    have h2 : scenarioConfig.interval = 30 := rfl
    have h3 : scenarioConfig.base_port = 3000 := rfl
    have h4 : scenarioConfig.port_range = 1000 := rfl
    have h5 : scenarioConfig.secret = "S3K3TPI5MYA2M67V" := rfl
    rw [h1, h2, h3, h4, h5]
    have h6 : ((30 : ℤ) / 30).toNat = 1 := rfl
    rw [h6]
  have e0 : (Server.get_window_params scenarioConfig 0 0).1 =
      3000 + generate_otp "S3K3TPI5MYA2M67V" 0 % 1000 := by
    rw [server_port_eq_counter scenarioConfig (by decide) 0 0 (by norm_num)]
    have h1 : (⌊(0 : ℚ) + ((0 : ℤ) : ℚ)⌋ : ℤ) = 0 := by norm_num
    have h2 : scenarioConfig.interval = 30 := rfl
    have h3 : scenarioConfig.base_port = 3000 := rfl
    have h4 : scenarioConfig.port_range = 1000 := rfl
    have h5 : scenarioConfig.secret = "S3K3TPI5MYA2M67V" := rfl
    rw [h1, h2, h3, h4, h5]
    have h6 : ((0 : ℤ) / 30).toNat = 0 := rfl
    rw [h6]
  rw [e0, e1]
  decide

/-! ## The client connector's retry loop -/

theorem try_offsets_eq (cfg : Config) (now : ℚ) (conn_ok : ℤ → Bool) :
    ∀ L : List ℤ,
      (Client.try_offsets cfg now conn_ok L).1 =
        (L.takeWhile (fun o => !conn_ok o) ++
          (L.dropWhile (fun o => !conn_ok o)).take 1).map
          (fun (o : ℤ) => (o, Client.get_totp_port cfg (now + (o : ℚ)))) ∧
      (Client.try_offsets cfg now conn_ok L).2 =
        (L.find? conn_ok).map
          (fun (o : ℤ) => (o, Client.get_totp_port cfg (now + (o : ℚ)))) := by
  intro L
  induction L with
  | nil => exact ⟨rfl, rfl⟩
  | cons o rest ih =>
    cases hc : conn_ok o with
    | true =>
      unfold Client.try_offsets
      rw [hc]
      constructor
      · simp [List.takeWhile_cons, List.dropWhile_cons, hc]
      · simp [List.find?_cons, hc]
    | false =>
      unfold Client.try_offsets
      rw [hc]
      constructor
      · simp [List.takeWhile_cons, List.dropWhile_cons, hc, ih.1]
      · simp [List.find?_cons, hc, ih.2]

/-! ## The claims -/

/-- C6 counterexample: with registry ticks at t = 0 and t = 31 — and 31
lies inside the claimed listening span `-15 ≤ t < 45` — the offset-0
socket no longer carries the port derived at `window_start = 0`: the tick
at t = 31 closed it (the derived port changed when the window advanced at
t = 30) and bound the window-30 port instead, refuting "P0 is listening
for all `-15 ≤ t < 45`"; socket binds succeed throughout, as in the
scenario's controlled environment. -/
theorem claim_C6_counterexample :
    (-15 : ℚ) ≤ 31 ∧ (31 : ℚ) < 45 ∧
    ((Server.tick scenarioConfig 31 (fun _ => true)
        (Server.tick scenarioConfig 0 (fun _ => true) []).1).1.lookup 0).map
        Server.SockRec.port ≠
      some (Server.get_window_params scenarioConfig 0 0).1 := by
  have hint : scenarioConfig.interval = 30 := rfl
  have hext : scenarioConfig.extend = 15 := rfl
  have hoff : scenarioConfig.offsets = [0] := rfl
  have hws_0 : window_start scenarioConfig.interval ((0 : ℚ) + ((0 : ℤ) : ℚ)) = 0 := by
    rw [hint]
    have h := window_start_thirty (t := (0 : ℚ) + ((0 : ℤ) : ℚ)) 0 le_rfl
      (by push_cast; norm_num) (by push_cast; norm_num)
    simpa using h
  have hws_31 : window_start scenarioConfig.interval ((31 : ℚ) + ((0 : ℤ) : ℚ)) = 30 := by
    rw [hint]
    have h := window_start_thirty (t := (31 : ℚ) + ((0 : ℤ) : ℚ)) 1 (by norm_num)
      (by push_cast; norm_num) (by push_cast; norm_num)
    simpa using h
  have hws_30 : window_start scenarioConfig.interval ((30 : ℚ) + ((0 : ℤ) : ℚ)) = 30 := by
    rw [hint]
    have h := window_start_thirty (t := (30 : ℚ) + ((0 : ℤ) : ℚ)) 1 (by norm_num)
      (by push_cast; norm_num) (by push_cast; norm_num)
    simpa using h
  have hcong31 : Server.get_window_params scenarioConfig 31 0 =
      Server.get_window_params scenarioConfig 30 0 :=
    get_window_params_congr _ (hws_31.trans hws_30.symm)
  refine ⟨by norm_num, by norm_num, ?_⟩
  have h1 : (Server.tick scenarioConfig 0 (fun _ => true) []).1 =
      [(0, Server.freshRec scenarioConfig 0 0)] := by
    refine tick_singleton_create scenarioConfig 0 (fun _ => true) hoff ?_ rfl
    rw [(get_window_params_bounds scenarioConfig 0 0).1, hws_0, hext]
    push_cast
    norm_num
  rw [h1]
  have h2 : (Server.tick scenarioConfig 31 (fun _ => true)
      [(0, Server.freshRec scenarioConfig 0 0)]).1 =
      [(0, Server.freshRec scenarioConfig 31 0)] := by
    refine tick_singleton_replace scenarioConfig 31 (fun _ => true)
      (Server.freshRec scenarioConfig 0 0) hoff (Or.inr ?_) ?_ rfl
    · show (Server.get_window_params scenarioConfig 31 0).1 ≠
        (Server.get_window_params scenarioConfig 0 0).1
      rw [hcong31]
      exact scenario_ports_differ
    · rw [(get_window_params_bounds scenarioConfig 31 0).1, hws_31, hext]
      push_cast
      norm_num
  rw [h2]
  have h3 : ([(0, Server.freshRec scenarioConfig 31 0)] : Server.RegState).lookup 0 =
      some (Server.freshRec scenarioConfig 31 0) := rfl
  rw [h3]
  simp only [Option.map_some']
  intro hcontra
  have hp : (Server.get_window_params scenarioConfig 31 0).1 =
      (Server.get_window_params scenarioConfig 0 0).1 :=
    Option.some.inj hcontra
  rw [hcong31] at hp
  exact scenario_ports_differ hp

/-- C6, amended: in the scenario `interval=30, extend=15, base_port=3000,
port_range=1000, offsets=[0]` (with the repository's example secret), the
record holding the port P0 derived at `window_start = 0` — with validity
bounds `valid_start = -15`, `valid_end = 45` — is created by a tick at any
time `0 ≤ t < 30` and kept by further ticks in that range; but at the
first tick with `30 ≤ t < 60` — already at t = 31, not only at t = 46 —
the derived port changes, so the socket is closed and replaced by the one
for `window_start = 30` (bounds `[15, 75)`, port P1 ≠ P0): retirement
triggers on port change before `valid_end` expiry, and with `offsets=[0]`
the window-0 socket does not exist before t = 0 at all; socket binds
succeed throughout, as in the scenario's controlled environment. -/
theorem claim_C6 (now now' : ℚ) (h0 : 0 ≤ now) (h1 : now < 30)
    (h0' : 30 ≤ now') (h1' : now' < 60) :
    (Server.tick scenarioConfig now (fun _ => true) []).1 =
      [(0, Server.freshRec scenarioConfig 0 0)] ∧
    (Server.tick scenarioConfig now (fun _ => true)
        [(0, Server.freshRec scenarioConfig 0 0)]).1 =
      [(0, Server.freshRec scenarioConfig 0 0)] ∧
    (Server.tick scenarioConfig now' (fun _ => true)
        [(0, Server.freshRec scenarioConfig 0 0)]).1 =
      [(0, Server.freshRec scenarioConfig 30 0)] ∧
    Server.freshRec scenarioConfig 0 0 =
      ⟨-15, 45, (Server.get_window_params scenarioConfig 0 0).1⟩ ∧
    Server.freshRec scenarioConfig 30 0 =
      ⟨15, 75, (Server.get_window_params scenarioConfig 30 0).1⟩ ∧
    (Server.get_window_params scenarioConfig 30 0).1 ≠
      (Server.get_window_params scenarioConfig 0 0).1 := by
  have hint : scenarioConfig.interval = 30 := rfl
  have hext : scenarioConfig.extend = 15 := rfl
  have hoff : scenarioConfig.offsets = [0] := rfl
  have hws_0 : window_start scenarioConfig.interval ((0 : ℚ) + ((0 : ℤ) : ℚ)) = 0 := by
    rw [hint]
    have h := window_start_thirty (t := (0 : ℚ) + ((0 : ℤ) : ℚ)) 0 le_rfl
      (by push_cast; norm_num) (by push_cast; norm_num)
    simpa using h
  have hws_30 : window_start scenarioConfig.interval ((30 : ℚ) + ((0 : ℤ) : ℚ)) = 30 := by
    rw [hint]
    have h := window_start_thirty (t := (30 : ℚ) + ((0 : ℤ) : ℚ)) 1 (by norm_num)
      (by push_cast; norm_num) (by push_cast; norm_num)
    simpa using h
  have hws_now : window_start scenarioConfig.interval (now + ((0 : ℤ) : ℚ)) = 0 := by
    rw [hint]
    have h := window_start_thirty (t := now + ((0 : ℤ) : ℚ)) 0 le_rfl
      (by push_cast; linarith) (by push_cast; linarith)
    simpa using h
  have hws_now' : window_start scenarioConfig.interval (now' + ((0 : ℤ) : ℚ)) = 30 := by
    rw [hint]
    have h := window_start_thirty (t := now' + ((0 : ℤ) : ℚ)) 1 (by norm_num)
      (by push_cast; linarith) (by push_cast; linarith)
    simpa using h
  have hcong_now : Server.get_window_params scenarioConfig now 0 =
      Server.get_window_params scenarioConfig 0 0 :=
    get_window_params_congr _ (hws_now.trans hws_0.symm)
  have hcong_now' : Server.get_window_params scenarioConfig now' 0 =
      Server.get_window_params scenarioConfig 30 0 :=
    get_window_params_congr _ (hws_now'.trans hws_30.symm)
  have hfresh_now : Server.freshRec scenarioConfig now 0 =
      Server.freshRec scenarioConfig 0 0 :=
    freshRec_congr _ (hws_now.trans hws_0.symm)
  have hfresh_now' : Server.freshRec scenarioConfig now' 0 =
      Server.freshRec scenarioConfig 30 0 :=
    freshRec_congr _ (hws_now'.trans hws_30.symm)
  have hb0 := get_window_params_bounds scenarioConfig 0 0
  have hb30 := get_window_params_bounds scenarioConfig 30 0
  have hvs0 : (Server.get_window_params scenarioConfig 0 0).2.1 = -15 := by
    rw [hb0.1, hws_0, hext]; decide
  have hve0 : (Server.get_window_params scenarioConfig 0 0).2.2 = 45 := by
    rw [hb0.2, hws_0, hint, hext]; decide
  have hvs30 : (Server.get_window_params scenarioConfig 30 0).2.1 = 15 := by
    rw [hb30.1, hws_30, hext]; decide
  have hve30 : (Server.get_window_params scenarioConfig 30 0).2.2 = 75 := by
    rw [hb30.2, hws_30, hint, hext]; decide
  refine ⟨?_, ?_, ?_, ?_, ?_, scenario_ports_differ⟩
  · have hc := tick_singleton_create scenarioConfig now (fun _ => true) hoff (by
      rw [(get_window_params_bounds scenarioConfig now 0).1, hws_now, hext]
      push_cast
      linarith) rfl
    rw [hfresh_now] at hc
    exact hc
  · refine tick_singleton_keep scenarioConfig now (fun _ => true)
      (Server.freshRec scenarioConfig 0 0) hoff ?_ ?_
    · show ¬(((Server.get_window_params scenarioConfig 0 0).2.2 : ℚ) ≤ now)
      rw [hve0]
      push_cast
      linarith
    · show (Server.get_window_params scenarioConfig now 0).1 =
        (Server.get_window_params scenarioConfig 0 0).1
      rw [hcong_now]
  · have hc := tick_singleton_replace scenarioConfig now' (fun _ => true)
      (Server.freshRec scenarioConfig 0 0) hoff
      (Or.inr (by
        show (Server.get_window_params scenarioConfig now' 0).1 ≠
          (Server.get_window_params scenarioConfig 0 0).1
        rw [hcong_now']
        exact scenario_ports_differ))
      (by
        rw [(get_window_params_bounds scenarioConfig now' 0).1, hws_now', hext]
        push_cast
        linarith) rfl
    rw [hfresh_now'] at hc
    exact hc
  · unfold Server.freshRec
    dsimp only
    rw [hvs0, hve0]
  · unfold Server.freshRec
    dsimp only
    rw [hvs30, hve30]

/-- C8: for every local inbound connection or datagram, the client tries
the configured offsets in their configured list order — the attempted
offsets are the prefix of `offsets` up to and including the first
successful one, so (offsets being distinct) each offset's derived port is
attempted at most once, the first success is used and no later offset is
tried; if every attempt fails, the local TCP connection is closed without
forwarding and the failure is reported, and in UDP mode nothing is sent
back to the local sender and the failure is reported. -/
theorem claim_C8 (cfg : Config) (now : ℚ) (conn_ok : ℤ → Bool)
    (hnd : cfg.offsets.Nodup) :
    (Client.handle_tcp_connection cfg now conn_ok).attempts =
      (cfg.offsets.takeWhile (fun o => !conn_ok o) ++
        (cfg.offsets.dropWhile (fun o => !conn_ok o)).take 1).map
        (fun (o : ℤ) => (o, Client.get_totp_port cfg (now + (o : ℚ)))) ∧
    ((Client.handle_tcp_connection cfg now conn_ok).attempts.map Prod.fst) <+:
      cfg.offsets ∧
    (∀ o : ℤ,
      ((Client.handle_tcp_connection cfg now conn_ok).attempts.map Prod.fst).count o
        ≤ 1) ∧
    (Client.handle_tcp_connection cfg now conn_ok).server_conn =
      (cfg.offsets.find? conn_ok).map
        (fun (o : ℤ) => (o, Client.get_totp_port cfg (now + (o : ℚ)))) ∧
    (cfg.offsets.find? conn_ok = none →
      (Client.handle_tcp_connection cfg now conn_ok).local_closed = true ∧
      (Client.handle_tcp_connection cfg now conn_ok).forwarded = false ∧
      (Client.handle_tcp_connection cfg now conn_ok).failure_reported = true) ∧
    (Client.handle_udp_packet cfg now conn_ok).attempts =
      (Client.handle_tcp_connection cfg now conn_ok).attempts ∧
    (Client.handle_udp_packet cfg now conn_ok).used =
      (Client.handle_tcp_connection cfg now conn_ok).server_conn ∧
    (Client.handle_udp_packet cfg now conn_ok).sent_to_local =
      (cfg.offsets.find? conn_ok).isSome ∧
    (cfg.offsets.find? conn_ok = none →
      (Client.handle_udp_packet cfg now conn_ok).failure_reported = true) := by
  have h := try_offsets_eq cfg now conn_ok cfg.offsets
  have hatt : (Client.handle_tcp_connection cfg now conn_ok).attempts =
      (Client.try_offsets cfg now conn_ok cfg.offsets).1 := by
    unfold Client.handle_tcp_connection
    split <;> rfl
  have hconn : (Client.handle_tcp_connection cfg now conn_ok).server_conn =
      (Client.try_offsets cfg now conn_ok cfg.offsets).2 := by
    unfold Client.handle_tcp_connection
    split
    next hres => exact hres.symm
    next c hres => exact hres.symm
  have hattu : (Client.handle_udp_packet cfg now conn_ok).attempts =
      (Client.try_offsets cfg now conn_ok cfg.offsets).1 := by
    unfold Client.handle_udp_packet
    split <;> rfl
  have husedu : (Client.handle_udp_packet cfg now conn_ok).used =
      (Client.try_offsets cfg now conn_ok cfg.offsets).2 := by
    unfold Client.handle_udp_packet
    split
    next hres => exact hres.symm
    next c hres => exact hres.symm
  have hkeys : (Client.handle_tcp_connection cfg now conn_ok).attempts.map Prod.fst =
      cfg.offsets.takeWhile (fun o => !conn_ok o) ++
        (cfg.offsets.dropWhile (fun o => !conn_ok o)).take 1 := by
    rw [hatt, h.1, List.map_map]
    exact List.map_id _
  have hpre : ((Client.handle_tcp_connection cfg now conn_ok).attempts.map Prod.fst) <+:
      cfg.offsets := by
    rw [hkeys]
    refine ⟨(cfg.offsets.dropWhile (fun o => !conn_ok o)).drop 1, ?_⟩
    rw [List.append_assoc, List.take_append_drop,
      List.takeWhile_append_dropWhile (fun o => !conn_ok o) cfg.offsets]
  refine ⟨hatt.trans h.1, hpre, ?_, hconn.trans h.2, ?_, hattu.trans (hatt.symm ▸ rfl), ?_, ?_, ?_⟩
  · intro o
    exact List.nodup_iff_count_le_one.mp (hpre.sublist.nodup hnd) o
  · intro hf
    have h2 : (Client.try_offsets cfg now conn_ok cfg.offsets).2 = none := by
      rw [h.2, hf]; rfl
    unfold Client.handle_tcp_connection
    split
    next hres => exact ⟨rfl, rfl, rfl⟩
    next c hres => rw [h2] at hres; exact Option.noConfusion hres
  · rw [husedu, hconn]
  · unfold Client.handle_udp_packet
    split
    next hres =>
      rw [h.2] at hres
      cases hfind : cfg.offsets.find? conn_ok with
      | none => rfl
      | some o => rw [hfind] at hres; exact Option.noConfusion hres
    next c hres =>
      rw [h.2] at hres
      cases hfind : cfg.offsets.find? conn_ok with
      | none => rw [hfind] at hres; exact Option.noConfusion hres
      | some o => rfl
  · intro hf
    have h2 : (Client.try_offsets cfg now conn_ok cfg.offsets).2 = none := by
      rw [h.2, hf]; rfl
    unfold Client.handle_udp_packet
    split
    next hres => rfl
    next c hres => rw [h2] at hres; exact Option.noConfusion hres

/-- C5 counterexample: on an empty registry with the window already open
(`now = 0` and `valid_start = -15 ≤ 0`) but the bind of the derived port
failing (route.py lines 160-167: `create_tcp_socket` raises, the except
only logs, and nothing is stored), no record is created — although "no
record remains for the offset and now ≥ valid_start" holds, refuting the
claim's unconditional "created if and only if". -/
theorem claim_C5_counterexample :
    (([] : Server.RegState)).lookup 0 = none ∧
    (((Server.get_window_params scenarioConfig 0 0).2.1 : ℤ) : ℚ) ≤ 0 ∧
    (Server.tick_offset scenarioConfig 0 (fun _ => false) [] 5 0).created =
      none := by
  refine ⟨rfl, ?_, ?_⟩
  · have hint : scenarioConfig.interval = 30 := rfl
    have hext : scenarioConfig.extend = 15 := rfl
    have hws_0 : window_start scenarioConfig.interval
        ((0 : ℚ) + ((0 : ℤ) : ℚ)) = 0 := by
      rw [hint]
      have h := window_start_thirty (t := (0 : ℚ) + ((0 : ℤ) : ℚ)) 0 le_rfl
        (by push_cast; norm_num) (by push_cast; norm_num)
      simpa using h
    rw [(get_window_params_bounds scenarioConfig 0 0).1, hws_0, hext]
    push_cast
    norm_num
  · unfold Server.tick_offset
    split
    next r hres => simp [List.lookup] at hres
    next hres =>
      split_ifs with h1 h2
      · exact absurd h2 (by simp)
      · rfl
      · rfl

/-- C5, amended: on every registry tick, for every configured offset: an
existing record is retired (socket unregistered, closed, entry cleared)
iff `now >= old.valid_end` or the newly derived port differs from the
stored one; a record is created — always the freshly derived one — iff no
record remains for the offset after the retire check, `now >= valid_start`
of the current window, AND binding the derived port succeeds (on a bind
error the exception is logged, no record is stored this tick, and the
offset is retried on a later tick); if `now < valid_start`, no socket is
created on that tick. -/
theorem claim_C5 (cfg : Config) (now : ℚ) (bind_ok : ℕ → Bool)
    (st : Server.RegState) (τ : ℚ) (o : ℤ) :
    (∀ r, st.lookup o = some r →
      ((Server.tick_offset cfg now bind_ok st τ o).retired = some r ↔
        ((r.valid_end : ℚ) ≤ now ∨
          (Server.get_window_params cfg now o).1 ≠ r.port))) ∧
    (st.lookup o = none →
      (Server.tick_offset cfg now bind_ok st τ o).retired = none) ∧
    ((Server.tick_offset cfg now bind_ok st τ o).created.isSome ↔
      ((st.lookup o = none ∨
          (Server.tick_offset cfg now bind_ok st τ o).retired.isSome) ∧
        (((Server.get_window_params cfg now o).2.1 : ℤ) : ℚ) ≤ now ∧
        bind_ok (Server.get_window_params cfg now o).1 = true)) ∧
    ((Server.tick_offset cfg now bind_ok st τ o).created = none ∨
      (Server.tick_offset cfg now bind_ok st τ o).created =
        some (Server.freshRec cfg now o)) ∧
    (now < (((Server.get_window_params cfg now o).2.1 : ℤ) : ℚ) →
      (Server.tick_offset cfg now bind_ok st τ o).created = none) := by
  unfold Server.tick_offset
  split
  next r0 hl =>
    split_ifs with h1 h2 h3
    · refine ⟨?_, ?_, ?_, Or.inr rfl, ?_⟩
      · intro r hr
        rw [hl] at hr
        obtain rfl : r0 = r := Option.some.inj hr
        exact ⟨fun _ => h1, fun _ => rfl⟩
      · intro hn; rw [hl] at hn; exact Option.noConfusion hn
      · simp [hl, h2, h3]
      · intro hlt; exact absurd h2 (not_le.mpr hlt)
    · refine ⟨?_, ?_, ?_, Or.inl rfl, fun _ => rfl⟩
      · intro r hr
        rw [hl] at hr
        obtain rfl : r0 = r := Option.some.inj hr
        exact ⟨fun _ => h1, fun _ => rfl⟩
      · intro hn; rw [hl] at hn; exact Option.noConfusion hn
      · simp [hl, h2, h3]
    · refine ⟨?_, ?_, ?_, Or.inl rfl, fun _ => rfl⟩
      · intro r hr
        rw [hl] at hr
        obtain rfl : r0 = r := Option.some.inj hr
        exact ⟨fun _ => h1, fun _ => rfl⟩
      · intro hn; rw [hl] at hn; exact Option.noConfusion hn
      · simp [hl, h2]
    · refine ⟨?_, fun _ => rfl, ?_, Or.inl rfl, fun _ => rfl⟩
      · intro r hr
        rw [hl] at hr
        obtain rfl : r0 = r := Option.some.inj hr
        constructor
        · intro hc; exact absurd hc (by simp)
        · intro hc; exact absurd hc h1
      · simp [hl]
  next hl =>
    split_ifs with h1 h2
    · refine ⟨?_, fun _ => rfl, ?_, Or.inr rfl, ?_⟩
      · intro r hr; rw [hl] at hr; exact Option.noConfusion hr
      · simp [hl, h1, h2]
      · intro hlt; exact absurd h1 (not_le.mpr hlt)
    · refine ⟨?_, fun _ => rfl, ?_, Or.inl rfl, fun _ => rfl⟩
      · intro r hr; rw [hl] at hr; exact Option.noConfusion hr
      · simp [hl, h1, h2]
    · refine ⟨?_, fun _ => rfl, ?_, Or.inl rfl, fun _ => rfl⟩
      · intro r hr; rw [hl] at hr; exact Option.noConfusion hr
      · simp [hl, h1]

/-- C4: in every state reachable by the server registry's tick loop, each
configured offset has at most one record in `self.sockets` (its key list
has no duplicates), every stored record's port is exactly the port derived
for the window start it was created for (`valid_start + extend`), with the
matching validity bounds; and on any tick a binding is only ever kept
unchanged, deleted, or replaced by the whole freshly derived record —
never updated in place. -/
theorem claim_C4 (cfg : Config) (st : Server.RegState)
    (h : Server.Reachable cfg st) :
    ((st.map Prod.fst).Nodup) ∧
    (∀ q ∈ st, Server.goodRec cfg q.2) ∧
    (∀ (now : ℚ) (bind_ok : ℕ → Bool) (o : ℤ),
      (Server.tick cfg now bind_ok st).1.lookup o = st.lookup o ∨
      (Server.tick cfg now bind_ok st).1.lookup o = none ∨
      (Server.tick cfg now bind_ok st).1.lookup o =
        some (Server.freshRec cfg now o)) := by
  have main : ((st.map Prod.fst).Nodup) ∧ (∀ q ∈ st, Server.goodRec cfg q.2) := by
    induction h with
    | init => exact ⟨List.nodup_nil, fun q hq => absurd hq (List.not_mem_nil q)⟩
    | step now bind_ok h ih => exact tick_preserves cfg now bind_ok _ ih.1 ih.2
  refine ⟨main.1, main.2, ?_⟩
  intro now bind_ok o
  rw [tick_fst, tick_offsets_eq_foldl]
  exact foldl_tick_lookup cfg now bind_ok cfg.offsets st 5 o

/-- C7: on every iteration of the server loop, the wait timeout handed to
the multiplexer (or slept on) is the minimum of the fixed 5-second
ceiling, `valid_start - now` over every configured offset left with no
record and a not-yet-open window, and `valid_end - now` over every live
record; `run_tcp` sleeps for that timeout exactly when the registry is
empty and otherwise selects with it, and `run_udp` always selects with it
(selecting on an empty registration set waits out the timeout). -/
theorem claim_C7 (cfg : Config) (now : ℚ) (bind_ok : ℕ → Bool)
    (st : Server.RegState) (hnd : cfg.offsets.Nodup) :
    (Server.tick cfg now bind_ok st).2 =
      List.foldl min 5
        (((cfg.offsets.filter (fun o =>
            decide ((Server.tick cfg now bind_ok st).1.lookup o = none) &&
            decide (now < (((Server.get_window_params cfg now o).2.1 : ℤ) : ℚ)))).map
          (fun o => (((Server.get_window_params cfg now o).2.1 : ℤ) : ℚ) - now)) ++
         ((Server.tick cfg now bind_ok st).1.map
          (fun q => ((q.2.valid_end : ℤ) : ℚ) - now))) ∧
    ((Server.run_tcp_iter cfg now bind_ok st).2 =
        Server.LoopWait.sleep (Server.tick cfg now bind_ok st).2 ↔
      (Server.tick cfg now bind_ok st).1 = []) ∧
    ((Server.tick cfg now bind_ok st).1 ≠ [] →
      (Server.run_tcp_iter cfg now bind_ok st).2 =
        Server.LoopWait.select (Server.tick cfg now bind_ok st).2) ∧
    (Server.run_udp_iter cfg now bind_ok st).2 =
      Server.LoopWait.select (Server.tick cfg now bind_ok st).2 := by
  refine ⟨?_, ?_, ?_, rfl⟩
  · rw [List.foldl_append, tick_snd, tick_fst, tick_offsets_eq_foldl,
      List.foldl_map, foldl_tick_timeout cfg now bind_ok cfg.offsets st 5 hnd]
  · unfold Server.run_tcp_iter
    by_cases he : (Server.tick cfg now bind_ok st).1 = []
    · simp [he]
    · simp [he]
  · intro he
    unfold Server.run_tcp_iter
    simp [he]

/-- C1: for a fixed `(secret, interval, base_port, port_range)` with
`port_range > 0`, the port derivation is deterministic — two evaluations of
`Server.get_window_params` whose window starts coincide yield the same
port, and likewise two evaluations of `Client.get_totp_port` at
(nonnegative) times in the same window — and every returned port lies in
`[base_port, base_port + port_range)`. -/
theorem claim_C1 (cfg : Config) (hrange : 0 < cfg.port_range)
    (hi : 0 < cfg.interval) (now₁ now₂ : ℚ) (o₁ o₂ : ℤ)
    (hsame : window_start cfg.interval (now₁ + (o₁ : ℚ)) =
      window_start cfg.interval (now₂ + (o₂ : ℚ)))
    (t₁ t₂ : ℚ) (ht₁ : 0 ≤ t₁) (ht₂ : 0 ≤ t₂)
    (htsame : window_start cfg.interval t₁ = window_start cfg.interval t₂) :
    (Server.get_window_params cfg now₁ o₁).1 = (Server.get_window_params cfg now₂ o₂).1 ∧
    cfg.base_port ≤ (Server.get_window_params cfg now₁ o₁).1 ∧
    (Server.get_window_params cfg now₁ o₁).1 < cfg.base_port + cfg.port_range ∧
    Client.get_totp_port cfg t₁ = Client.get_totp_port cfg t₂ ∧
    cfg.base_port ≤ Client.get_totp_port cfg t₁ ∧
    Client.get_totp_port cfg t₁ < cfg.base_port + cfg.port_range := by
  have hcancel : ∀ a b : ℤ, a * cfg.interval = b * cfg.interval → a = b := by
    intro a b h
    exact mul_right_cancel₀ hi.ne' h
  refine ⟨?_, ?_, ?_, ?_, ?_, ?_⟩
  · rw [get_window_params_port, get_window_params_port, hsame]
  · rw [get_window_params_port]; exact Nat.le_add_right _ _
  · rw [get_window_params_port]
    exact Nat.add_lt_add_left (Nat.mod_lt _ hrange) _
  · rw [client_port_eq_counter cfg hi ht₁, client_port_eq_counter cfg hi ht₂]
    rw [window_start_eq_ediv hi ht₁, window_start_eq_ediv hi ht₂] at htsame
    rw [hcancel _ _ htsame]
  · rw [client_port_eq_counter cfg hi ht₁]; exact Nat.le_add_right _ _
  · rw [client_port_eq_counter cfg hi ht₁]
    exact Nat.add_lt_add_left (Nat.mod_lt _ hrange) _

/-- At the pre-epoch time `t = -1/2` — which never occurs in a run —
`(int(t) // interval) * interval` is `0` while
`floor(t / interval) * interval` is `-30`: Python `int()` truncates toward
zero while `floor` rounds down.  This boundary fact documents why the
window-start identity is stated for nonnegative evaluation times. -/
theorem window_start_mismatch_at_negative_time :
    window_start 30 (-(1 : ℚ) / 2) ≠ spec_window_start 30 (-(1 : ℚ) / 2) := by
  have h1 : window_start 30 (-(1 : ℚ) / 2) = 0 := by
    unfold window_start pyFloorDiv pyInt
    rw [if_neg (by norm_num)]
    have h : ⌊-(-(1 : ℚ) / 2)⌋ = 0 := by norm_num
    rw [h]
    decide
  have h2 : spec_window_start 30 (-(1 : ℚ) / 2) = -30 := by
    unfold spec_window_start
    have h : ⌊(-(1 : ℚ) / 2) / ((30 : ℤ) : ℚ)⌋ = -1 := by norm_num
    rw [h]
    decide
  rw [h1, h2]
  decide

/-- C2: for every evaluation time `t` and positive interval, the window
start computed by the code, `(int(t) // interval) * interval`, equals
`floor(t / interval) * interval`; it is idempotent — any `t'` in the same
interval yields the same window start — and the right boundary is
exclusive: `t = window_start + interval` belongs to the next window.  The
hypothesis `t ≥ 0` is the run condition shared with C1 and C3: evaluation
times come from `time.time() + offset`, seconds since the 1970 epoch (see
`window_start_mismatch_at_negative_time` for the pre-epoch boundary
behaviour that motivates it). -/
theorem claim_C2 {interval : ℤ} (hi : 0 < interval) (t : ℚ) (ht : 0 ≤ t) :
    window_start interval t = spec_window_start interval t ∧
    (∀ t' : ℚ, (window_start interval t : ℚ) ≤ t' →
      t' < (window_start interval t : ℚ) + (interval : ℚ) →
      window_start interval t' = window_start interval t) ∧
    window_start interval ((window_start interval t + interval : ℤ) : ℚ) =
      window_start interval t + interval := by
  have hi' : (0 : ℚ) < (interval : ℚ) := by exact_mod_cast hi
  have hq : window_start interval t = (⌊t⌋ / interval) * interval :=
    window_start_eq_ediv hi ht
  have hspec : spec_window_start interval t = (⌊t⌋ / interval) * interval := by
    unfold spec_window_start
    rw [floor_div_intCast t hi]
  refine ⟨hq.trans hspec.symm, ?_, ?_⟩
  · intro t' h1 h2
    have ht0 : (0 : ℚ) ≤ (window_start interval t : ℚ) := by
      have : 0 ≤ ⌊t⌋ / interval := Int.ediv_nonneg (Int.floor_nonneg.mpr ht) hi.le
      rw [hq]; push_cast
      positivity
    have ht' : 0 ≤ t' := ht0.trans h1
    rw [window_start_eq_ediv hi ht']
    set q := ⌊t⌋ / interval with hqdef
    rw [hq] at h1 h2 ⊢
    have hfl : ⌊t'⌋ / interval = q := by
      have hlow : q * interval ≤ ⌊t'⌋ := by
        rw [Int.le_floor]; push_cast; exact_mod_cast h1
      have hhigh : ⌊t'⌋ < (q + 1) * interval := by
        rw [Int.floor_lt]; push_cast; push_cast at h2; linarith
      have h1' := Int.ediv_le_ediv hi (hlow.trans (le_refl _))
      have hlow' : q ≤ ⌊t'⌋ / interval := by
        rw [Int.le_ediv_iff_mul_le hi]; exact hlow
      have hhigh' : ⌊t'⌋ / interval < q + 1 := by
        rw [Int.ediv_lt_iff_lt_mul hi]; exact hhigh
      omega
    rw [hfl]
  · have hws : ∀ m : ℤ, window_start interval ((m * interval : ℤ) : ℚ) = m * interval := by
      intro m
      unfold window_start pyFloorDiv
      rw [pyInt_intCast, Int.mul_fdiv_cancel _ hi.ne']
    have : window_start interval t + interval = (⌊t⌋ / interval + 1) * interval := by
      rw [hq]; ring
    rw [this, hws]

/-- C3: for every configuration and evaluation time `t = now + offset ≥ 0`
(all times occurring in a run), the client's port computation applied to
the raw time (`Client.get_totp_port`, TOTP evaluated directly at `t`)
yields the same port as the server's computation for the window containing
`t` (`Server.get_window_params`, TOTP evaluated at `window_start`): the two
derivations agree inside a window. -/
theorem claim_C3 (cfg : Config) (hi : 0 < cfg.interval) (now : ℚ) (offset : ℤ)
    (ht : 0 ≤ now + (offset : ℚ)) :
    Client.get_totp_port cfg (now + (offset : ℚ)) =
      (Server.get_window_params cfg now offset).1 := by
  rw [client_port_eq_counter cfg hi ht, server_port_eq_counter cfg hi now offset ht]

/-- C9: in TCP mode, when the server's connection attempt to the target
fails, the inbound client connection is closed and nothing is forwarded;
`bidirectional_forward_tcp` runs exactly when the target connection
succeeds. -/
theorem claim_C9 :
    (∀ b, (Server.handle_tcp_connection b).forwarded = b) ∧
    (Server.handle_tcp_connection false).client_closed = true ∧
    (Server.handle_tcp_connection false).forwarded = false ∧
    (Server.handle_tcp_connection false).target_closed = false := by
  refine ⟨?_, rfl, rfl, rfl⟩
  intro b; cases b <;> rfl

/-- C10: every UDP read in the relay is a `recvfrom(4096)` that truncates a
longer datagram to its first 4096 bytes; along the whole relay the target
receives `P.take 4096` and the application receives `R.take 4096`, both of
length at most 4096, and the end-to-end exchange is preserved exactly iff
both payloads are at most 4096 bytes long. -/
theorem claim_C10 (P R : List ℕ) :
    (∀ d : List ℕ, recv4096 d = d.take 4096 ∧ (recv4096 d).length ≤ 4096) ∧
    end_to_end_udp P R = (P.take 4096, R.take 4096) ∧
    (end_to_end_udp P R).1.length ≤ 4096 ∧
    (end_to_end_udp P R).2.length ≤ 4096 ∧
    (end_to_end_udp P R = (P, R) ↔ P.length ≤ 4096 ∧ R.length ≤ 4096) := by
  have htake : ∀ d : List ℕ, (d.take 4096).length ≤ 4096 := by
    intro d; rw [List.length_take]; exact Nat.min_le_left _ _
  have hself : ∀ d : List ℕ, d.take 4096 = d ↔ d.length ≤ 4096 := by
    intro d
    constructor
    · intro h
      have hl := congrArg List.length h
      rw [List.length_take] at hl
      omega
    · intro h; exact List.take_of_length_le h
  have hee : end_to_end_udp P R = (P.take 4096, R.take 4096) := by
    show ((P.take 4096).take 4096, (R.take 4096).take 4096) = _
    rw [List.take_take, List.take_take]
    norm_num
  refine ⟨fun d => ⟨rfl, htake d⟩, hee, ?_, ?_, ?_⟩
  · rw [hee]; exact htake P
  · rw [hee]; exact htake R
  · rw [hee]
    constructor
    · intro h
      have h1 : P.take 4096 = P := congrArg Prod.fst h
      have h2 : R.take 4096 = R := congrArg Prod.snd h
      exact ⟨(hself P).mp h1, (hself R).mp h2⟩
    · intro ⟨h1, h2⟩
      rw [(hself P).mpr h1, (hself R).mpr h2]

/-! ## Witnesses: the claims instantiated at concrete inputs -/

/-- Witness for C1 at the scenario configuration, both evaluations at
time 0. -/
theorem claim_C1_witness :
    (Server.get_window_params scenarioConfig 0 0).1 =
      (Server.get_window_params scenarioConfig 0 0).1 ∧
    scenarioConfig.base_port ≤ (Server.get_window_params scenarioConfig 0 0).1 ∧
    (Server.get_window_params scenarioConfig 0 0).1 <
      scenarioConfig.base_port + scenarioConfig.port_range ∧
    Client.get_totp_port scenarioConfig 0 = Client.get_totp_port scenarioConfig 0 ∧
    scenarioConfig.base_port ≤ Client.get_totp_port scenarioConfig 0 ∧
    Client.get_totp_port scenarioConfig 0 <
      scenarioConfig.base_port + scenarioConfig.port_range :=
  claim_C1 scenarioConfig (by decide) (by decide) 0 0 0 0 rfl 0 0
    (by norm_num) (by norm_num) rfl

/-- Witness for C2 at `t = 1/2`, interval 30. -/
theorem claim_C2_witness :
    (0 : ℚ) ≤ 1 / 2 ∧
    window_start 30 ((1 : ℚ) / 2) = spec_window_start 30 ((1 : ℚ) / 2) :=
  ⟨by norm_num, (@claim_C2 30 (by norm_num) ((1 : ℚ) / 2) (by norm_num)).1⟩

/-- Witness for C3 at the scenario configuration, time 0, offset 0. -/
theorem claim_C3_witness :
    Client.get_totp_port scenarioConfig ((0 : ℚ) + ((0 : ℤ) : ℚ)) =
      (Server.get_window_params scenarioConfig 0 0).1 :=
  claim_C3 scenarioConfig (by decide) 0 0 (by norm_num)

/-- Witness for C4 at the initial (empty, trivially reachable) registry. -/
theorem claim_C4_witness :
    Server.Reachable scenarioConfig [] ∧
    ((([] : Server.RegState)).map Prod.fst).Nodup :=
  ⟨Server.Reachable.init, (claim_C4 scenarioConfig [] Server.Reachable.init).1⟩

/-- Witness for C5: on an empty registry nothing is retired. -/
theorem claim_C5_witness :
    (([] : Server.RegState)).lookup 0 = none ∧
    (Server.tick_offset scenarioConfig 0 (fun _ => true) [] 5 0).retired = none :=
  ⟨rfl, (claim_C5 scenarioConfig 0 (fun _ => true) [] 5 0).2.1 rfl⟩

/-- Witness for C6 with a tick at t = 7 and a tick at t = 46. -/
theorem claim_C6_witness :
    (Server.tick scenarioConfig 7 (fun _ => true) []).1 =
      [(0, Server.freshRec scenarioConfig 0 0)] ∧
    (Server.tick scenarioConfig 7 (fun _ => true)
        [(0, Server.freshRec scenarioConfig 0 0)]).1 =
      [(0, Server.freshRec scenarioConfig 0 0)] ∧
    (Server.tick scenarioConfig 46 (fun _ => true)
        [(0, Server.freshRec scenarioConfig 0 0)]).1 =
      [(0, Server.freshRec scenarioConfig 30 0)] ∧
    Server.freshRec scenarioConfig 0 0 =
      ⟨-15, 45, (Server.get_window_params scenarioConfig 0 0).1⟩ ∧
    Server.freshRec scenarioConfig 30 0 =
      ⟨15, 75, (Server.get_window_params scenarioConfig 30 0).1⟩ ∧
    (Server.get_window_params scenarioConfig 30 0).1 ≠
      (Server.get_window_params scenarioConfig 0 0).1 :=
  claim_C6 7 46 (by norm_num) (by norm_num) (by norm_num) (by norm_num)

/-- Witness for C7 at the scenario configuration, time 0, empty registry. -/
theorem claim_C7_witness :
    scenarioConfig.offsets.Nodup ∧
    (Server.run_udp_iter scenarioConfig 0 (fun _ => true) []).2 =
      Server.LoopWait.select (Server.tick scenarioConfig 0 (fun _ => true) []).2 :=
  ⟨by decide, (claim_C7 scenarioConfig 0 (fun _ => true) [] (by decide)).2.2.2⟩

/-- Witness for C8 with the spec's offsets `[-15, 0, 15]` and only the
0-offset attempt succeeding. -/
theorem claim_C8_witness :
    ([(-15 : ℤ), 0, 15]).Nodup ∧
    (Client.handle_udp_packet
        ⟨30, 15, 3000, 1000, "S3K3TPI5MYA2M67V", [-15, 0, 15]⟩ 0
        (fun o => o == 0)).sent_to_local =
      (([(-15 : ℤ), 0, 15]).find? (fun o => o == 0)).isSome :=
  ⟨by decide,
   (claim_C8 ⟨30, 15, 3000, 1000, "S3K3TPI5MYA2M67V", [-15, 0, 15]⟩ 0
     (fun o => o == 0) (by decide)).2.2.2.2.2.2.2.1⟩

end TotpRoute
